import Mathlib

/-!
Verification of the wooded-area-mapping pipeline: a shallow embedding of the
tiled-inference reconstruction core (sliding-window tile scheduling,
probability accumulation and normalization), the vegetation-index feature
computation, the thresholder and the accuracy evaluator, with theorems
settling the specification claims.

Numeric planes are modelled over the rationals; a floating-point NaN is
modelled as `Option.none`.
-/

namespace WoodedMapping

/-! ## TileScheduler and Reconstructor

Embedding of the sliding-window loop shared verbatim by
`predict_wooded_dl.py` (`main`, lines 82-127) and
`predict_wooded_batch_gcs.py` (`predict_scene`, lines 49-101):

  for ro in range(0, H, stride):
    for co in range(0, W, stride):
      patch, r0, r1, c0, c1 = get_patch(ro, co)
      ...
      prob[r0:r1, c0:c1] += pred[k, 0, :dr, :dc]
      count[r0:r1, c0:c1] += 1
  count[count == 0] = 1
  prob /= count

The classifier is abstracted as a function from a tile origin to its
per-pixel probability plane (in local tile coordinates), which covers every
possible classifier output.  Batching (`batch_size` flushes) groups tiles
but each tile is accumulated exactly once in generation order, so the
accumulated planes are the per-tile sums below.
-/

/-- Python `range(0, H, S)`: the multiples of `S` strictly below `H`, in
increasing order.  For `S ≥ 1` this list has `⌈H/S⌉ = (H + S - 1) / S`
elements. -/
def rowOrigins (H S : Nat) : List Nat :=
  (List.range ((H + S - 1) / S)).map (fun i => i * S)

/-- The nested `for ro in range(0, H, stride): for co in range(0, W, stride)`
loop: tile origins in row-major generation order. -/
def tileOrigins (H W S : Nat) : List (Nat × Nat) :=
  (rowOrigins H S).flatMap (fun ro => (rowOrigins W S).map (fun co => (ro, co)))

/-- Whether the accumulation slice `[r0:r1]` of the tile at row origin `ro`
contains row `r`, where `r0 = max(0, ro)` and `r1 = min(H, ro + P)` as in
`get_patch`. -/
def rowCovers (H P ro r : Nat) : Bool :=
  decide (max 0 ro ≤ r ∧ r < min H (ro + P))

/-- Whether the accumulation region `[r0:r1, c0:c1]` of the tile at origin
`o` contains the pixel `(r, c)`. -/
def tileCovers (H W P : Nat) (o : Nat × Nat) (r c : Nat) : Bool :=
  rowCovers H P o.1 r && rowCovers W P o.2 c

/-- The tiles whose accumulation region contains pixel `(r, c)`, in
generation order. -/
def coveringTiles (H W P S r c : Nat) : List (Nat × Nat) :=
  (tileOrigins H W S).filter (fun o => tileCovers H W P o r c)

/-- Final value of `count[r, c]`: once per covering tile the loop runs
`count[r0:r1, c0:c1] += 1`. -/
def coverageCount (H W P S r c : Nat) : Nat :=
  (coveringTiles H W P S r c).length

/-- Final value of `prob[r, c]`: once per covering tile the loop runs
`prob[r0:r1, c0:c1] += pred[k, 0, :dr, :dc]`, adding the classifier value of
that tile at local offset `(r - r0, c - c0) = (r - ro, c - co)`. -/
def probSum (H W P S : Nat) (f : Nat × Nat → Nat → Nat → ℚ) (r c : Nat) : ℚ :=
  ((coveringTiles H W P S r c).map (fun o => f o (r - o.1) (c - o.2))).sum

/-- Normalization `count[count == 0] = 1; prob /= count` at pixel `(r, c)`. -/
def normProb (H W P S : Nat) (f : Nat × Nat → Nat → Nat → ℚ) (r c : Nat) : ℚ :=
  probSum H W P S f r c /
    (if coverageCount H W P S r c = 0 then 1 else (coverageCount H W P S r c : ℚ))

/-- A patch as returned by `get_patch`: the padded `P×P` value plane
(`val i j` for local `i j < P`) and the readable extent bounds. -/
structure Patch where
  val : Nat → Nat → ℚ
  r0 : Nat
  r1 : Nat
  c0 : Nat
  c1 : Nat

/-- Embedding of `get_patch(ro, co)` (`predict_wooded_dl.py` lines 86-96 and
identically `predict_wooded_batch_gcs.py` lines 56-66):
`r0 = max(0, ro)`, `r1 = min(H, ro + P)`, likewise for columns; the slice
`img[:, r0:r1, c0:c1]` is padded to `P×P` with `np.pad(..., mode="edge")`,
so the value at local `(i, j)` replicates the nearest pixel of the slice:
row index `min(r0 + i, r1 - 1)`, column index `min(c0 + j, c1 - 1)`.
(With origins generated from `range(0, H, stride)` there is never any
leading padding, since `ro ≥ 0` gives `pad_r0 = ro - r0 = 0`.) -/
def get_patch (H W P : Nat) (img : Nat → Nat → ℚ) (ro co : Nat) : Patch :=
  { val := fun i j =>
      img (min (max 0 ro + i) (min H (ro + P) - 1))
          (min (max 0 co + j) (min W (co + P) - 1))
    r0 := max 0 ro
    r1 := min H (ro + P)
    c0 := max 0 co
    c1 := min W (co + P) }

/-- Row-major (lexicographic) strict order on tile origins. -/
def rowMajorLt (a b : Nat × Nat) : Prop :=
  a.1 < b.1 ∨ (a.1 = b.1 ∧ a.2 < b.2)

/-! ## FeatureEngine

Embedding of the index computations of `compute_features.py`.  A plane value
that would be NaN in numpy is `none`; all other values are exact rationals.
-/

/-- A single 2-D float plane. -/
abbrev Plane := Nat → Nat → ℚ

/-- Pixelwise `np.clip(x, 0, 1) = min(max(x, 0), 1)`. -/
def clip01 (x : ℚ) : ℚ := min (max x 0) 1

/-- Pixelwise `compute_ndvi` (`compute_features.py` lines 23-31): NaN where
`nir + red == 0`, else `(nir - red) / (nir + red)`. -/
def compute_ndvi (red nir : ℚ) : Option ℚ :=
  if nir + red = 0 then none else some ((nir - red) / (nir + red))

/-- Pixelwise `compute_evi` (lines 34-48): NaN where the denominator
`nir + 6*red - 7.5*blue + 1` is zero, else `2.5*(nir - red)/denom`. -/
def compute_evi (blue red nir : ℚ) : Option ℚ :=
  if nir + 6 * red - 7.5 * blue + 1 = 0 then none
  else some (2.5 * (nir - red) / (nir + 6 * red - 7.5 * blue + 1))

/-- Pixelwise `compute_savi` (lines 51-64): NaN where `nir + red + l == 0`,
else `((nir - red) / (nir + red + l)) * (1 + l)`. -/
def compute_savi (red nir l : ℚ) : Option ℚ :=
  if nir + red + l = 0 then none
  else some ((nir - red) / (nir + red + l) * (1 + l))

/-- Pixelwise `compute_ndwi` (lines 67-80): NaN where `green + nir == 0`,
else `(green - nir) / (green + nir)`. -/
def compute_ndwi (green nir : ℚ) : Option ℚ :=
  if green + nir = 0 then none else some ((green - nir) / (green + nir))

/-- Pixelwise `np.clip((x + 1) / 2, 0, 1)`: NaN propagates through the
rescale and the clip. -/
def rescale01 (x : Option ℚ) : Option ℚ := x.map (fun v => clip01 ((v + 1) / 2))

/-- Pixelwise `np.nan_to_num(x, nan=0.0, posinf=1.0, neginf=0.0)`: NaN is
replaced by 0.  (Infinities cannot arise in the exact rational model.) -/
def nan_to_num (x : Option ℚ) : Option ℚ :=
  match x with
  | none => some 0
  | some v => some v

/-- The NDVI channel as appended to the feature stack
(`compute_features.py` lines 145-150): rescaled, clipped, NaN-filled. -/
def ndviChannel (red nir : ℚ) : Option ℚ :=
  nan_to_num (rescale01 (compute_ndvi red nir))

/-- The EVI channel as appended (lines 152-157): rescaled, clipped,
NaN-filled. -/
def eviChannel (blue red nir : ℚ) : Option ℚ :=
  nan_to_num (rescale01 (compute_evi blue red nir))

/-- The SAVI channel as appended (lines 159-163, with the default
`l = 0.5`): rescaled and clipped but NOT passed through `np.nan_to_num`. -/
def saviChannel (red nir : ℚ) : Option ℚ :=
  rescale01 (compute_savi red nir (1 / 2))

/-- The NDWI channel as appended (lines 165-169): rescaled and clipped but
NOT passed through `np.nan_to_num`. -/
def ndwiChannel (green nir : ℚ) : Option ℚ :=
  rescale01 (compute_ndwi green nir)

/-- The band handling of `compute_features` (lines 118-125) in the
channel-count dimension, for images whose spatial dimensions both exceed 1:
for such images `np.squeeze` drops only a singleton channel axis, so a
single-band image (2-D after squeeze) is replicated into 4 identical bands
by `np.stack([img] * 4)`; otherwise fewer than 4 bands raises
`ValueError("Expected at least 4 bands, ...")` and more than 4 bands keeps
only the first 4.  (`bandFix` below covers the full shape behavior,
including singleton spatial dimensions.) -/
def selectBands (img : List Plane) : Except String (List Plane) :=
  match img with
  | [b] => Except.ok [b, b, b, b]
  | _ =>
    if img.length < 4 then Except.error ("Expected at least 4 bands")
    else Except.ok (img.take 4)

/-- The possible outcomes of the band-count handling of `compute_features`
(lines 119-125): the squeezed array is stacked four times (`replicate`),
`ValueError` is raised (`shapeError`), the leading axis is cut to its first
4 entries by `img[:4]` (`truncate`), the array is used as-is (`keep`), or —
for a fully singleton image squeezed to 0-D — `img.shape[0]` raises
`IndexError` (`indexError`). -/
inductive BandFix where
  | replicate
  | shapeError
  | truncate
  | keep
  | indexError
  deriving DecidableEq

/-- The branch taken by `compute_features` (lines 119-125) as a function of
the image shape, e.g. `[C, H, W]`: `img = np.squeeze(img)` removes every
axis of size 1; then `if img.ndim == 2` the array is stacked four times;
`elif img.shape[0] < 4` a `ValueError` is raised; `elif img.shape[0] > 4`
only `img[:4]` is kept; else the array is used unchanged.  After the
squeeze, `img.ndim` is the number of non-1 axes and `img.shape[0]` is the
first surviving dimension. -/
def bandFix (dims : List Nat) : BandFix :=
  if (dims.filter (fun d => d ≠ 1)).length = 2 then BandFix.replicate
  else
    match dims.filter (fun d => d ≠ 1) with
    | [] => BandFix.indexError
    | d0 :: _ =>
      if d0 < 4 then BandFix.shapeError
      else if d0 > 4 then BandFix.truncate
      else BandFix.keep

/-- The constant-zero plane (used for concrete instantiations). -/
def zeroPlane : Plane := fun _ _ => 0

/-! ## Thresholder -/

/-- The final masking step of `predict_wooded_dl.py` (lines 128-129) and
`predict_wooded_batch_gcs.py` (lines 98-99):
`binary = (prob > 0.5).astype(np.uint8); binary[~valid_mask] = 255`.
The invalid-pixel overwrite happens after thresholding, so the pixel value
is 255 exactly when the mask is invalid there. -/
def ternaryMask (prob : Plane) (valid : Nat → Nat → Bool) (r c : Nat) : Nat :=
  if valid r c then (if prob r c > 1 / 2 then 1 else 0) else 255

/-- The per-pixel mask of `wooded_map_single_image.py` (lines 95-118):
`wooded = (ndvi > thr)` (a NaN compares false, giving 0), then
`wooded[~valid] = 255`, then `wooded[np.isnan(ndvi)] = 255` last. -/
def wooded_pixel (ndvi : Option ℚ) (valid : Bool) (thr : ℚ) : Nat :=
  let w0 : Nat :=
    match ndvi with
    | some v => if v > thr then 1 else 0
    | none => 0
  let w1 : Nat := if valid then w0 else 255
  match ndvi with
  | none => 255
  | some _ => w1

/-! ## AccuracyEvaluator

Embedding of `compute_accuracy_metrics` (`accuracy_metrics.py` lines
16-78) after the two single-band rasters have been read.  Lines 34-35
apply `np.squeeze` to both arrays before the shape check, so the check
compares the shapes with singleton axes removed, and the subsequent
element-wise numpy operations run over the aligned elements of the two
squeezed arrays in row-major order.  Boolean-array `.sum()` counts are
counts over those aligned element pairs.
-/

/-- A single-band integer raster with its shape. -/
structure Raster where
  h : Nat
  w : Nat
  data : Nat → Nat → ℤ

/-- The shape of a 2-D array after `np.squeeze`: every axis of size 1 is
removed, the rest keep their order. -/
def squeezeShape (h w : Nat) : List Nat := [h, w].filter (fun d => d ≠ 1)

/-- The elements of a raster in row-major (numpy C) order.  `np.squeeze`
does not reorder elements, so this is also the element order of the
squeezed array. -/
def flatten (a : Raster) : List ℤ :=
  (List.range a.h).flatMap (fun r => (List.range a.w).map (fun c => a.data r c))

/-- The valid mask (lines 41-45) at one aligned element pair
`x = (pred value, ref value)`: `valid_ref = (ref == 0) | (ref == 1)`,
restricted by `ref != ref_nodata_val` when a reference no-data value is
known, intersected with `valid_pred = (pred == 0) | (pred == 1)`. -/
def validPair (refNodata : Option ℤ) (x : ℤ × ℤ) : Bool :=
  (((x.2 == 0) || (x.2 == 1)) &&
    (match refNodata with
     | some nd => x.2 != nd
     | none => true)) &&
  ((x.1 == 0) || (x.1 == 1))

/-- Line 59: `accuracy = (tp + tn) / n_valid if n_valid else 0.0`. -/
def accuracyVal (tp tn n : Nat) : ℚ :=
  if n ≠ 0 then ((tp : ℚ) + (tn : ℚ)) / (n : ℚ) else 0

/-- Line 60: `precision = tp / (tp + fp) if (tp + fp) > 0 else 0.0`. -/
def precisionVal (tp fp : Nat) : ℚ :=
  if tp + fp > 0 then (tp : ℚ) / ((tp : ℚ) + (fp : ℚ)) else 0

/-- Line 61: `recall = tp / (tp + fn) if (tp + fn) > 0 else 0.0`. -/
def recallVal (tp fn : Nat) : ℚ :=
  if tp + fn > 0 then (tp : ℚ) / ((tp : ℚ) + (fn : ℚ)) else 0

/-- Line 62: `f1 = 2 * precision * recall / (precision + recall) if
(precision + recall) > 0 else 0.0`. -/
def f1Val (p r : ℚ) : ℚ :=
  if p + r > 0 then 2 * p * r / (p + r) else 0

/-- Line 66: `pe = ((tp + fp) * (tp + fn) + (fn + tn) * (fp + tn)) /
(n_valid * n_valid) if n_valid else 0.0`. -/
def peVal (tp tn fp fn n : Nat) : ℚ :=
  if n ≠ 0 then
    (((tp : ℚ) + (fp : ℚ)) * ((tp : ℚ) + (fn : ℚ)) +
      ((fn : ℚ) + (tn : ℚ)) * ((fp : ℚ) + (tn : ℚ))) / ((n : ℚ) * (n : ℚ))
  else 0

/-- Line 67: `kappa = (po - pe) / (1 - pe) if (1 - pe) != 0 else 0.0`. -/
def kappaVal (po pe : ℚ) : ℚ :=
  if 1 - pe ≠ 0 then (po - pe) / (1 - pe) else 0

/-- The dictionary returned by `compute_accuracy_metrics` (lines 69-78). -/
structure EvalResult where
  accuracy : ℚ
  precision : ℚ
  recall' : ℚ
  f1 : ℚ
  kappa : ℚ
  tp : Nat
  tn : Nat
  fp : Nat
  fn : Nat
  n_valid : Nat
  n_skip : Nat

/-- `compute_accuracy_metrics(predicted, reference, pred_nodata,
ref_nodata)` (lines 16-78) after file loading: both arrays are squeezed
(lines 34-35); shapes that still differ raise (lines 37-38); otherwise the
valid mask, the confusion counts (lines 54-57) and the derived statistics
are computed element-wise over the aligned elements of the two squeezed
arrays.  The `pred_nodata` parameter is accepted (CLI default 255) but, as
in the source, never read. -/
def compute_accuracy_metrics (pred ref : Raster) ( pred_nodata : ℤ)
    (ref_nodata : Option ℤ) : Except String EvalResult :=
  if squeezeShape pred.h pred.w = squeezeShape ref.h ref.w then
    let pairs := (flatten pred).zip (flatten ref)
    let n_valid := pairs.countP (validPair ref_nodata)
    let n_skip := pairs.countP (fun x => ! validPair ref_nodata x)
    let tp := pairs.countP (fun x => validPair ref_nodata x && (x.2 == 1) && (x.1 == 1))
    let tn := pairs.countP (fun x => validPair ref_nodata x && (x.2 == 0) && (x.1 == 0))
    let fp := pairs.countP (fun x => validPair ref_nodata x && (x.2 == 0) && (x.1 == 1))
    let fn := pairs.countP (fun x => validPair ref_nodata x && (x.2 == 1) && (x.1 == 0))
    let precision := precisionVal tp fp
    let recallv := recallVal tp fn
    Except.ok
      { accuracy := accuracyVal tp tn n_valid
        precision := precision
        recall' := recallv
        f1 := f1Val precision recallv
        kappa := kappaVal (accuracyVal tp tn n_valid) (peVal tp tn fp fn n_valid)
        tp := tp, tn := tn, fp := fp, fn := fn
        n_valid := n_valid, n_skip := n_skip }
  else Except.error ("Predicted and reference rasters must have the same shape.")

/-- The valid-intersection predicate in the words of the specification, at
one aligned element pair `x = (pred value, ref value)`: reference class in
`{0, 1}`, reference distinct from the reference no-data value when one is
known, and predicted class in `{0, 1}`. -/
def specPair (rn : Option ℤ) (x : ℤ × ℤ) : Prop :=
  (x.2 = 0 ∨ x.2 = 1) ∧ (∀ nd, rn = some nd → x.2 ≠ nd) ∧ (x.1 = 0 ∨ x.1 = 1)

instance (rn : Option ℤ) (x : ℤ × ℤ) : Decidable (specPair rn x) :=
  decidable_of_iff (validPair rn x = true) (by
    unfold validPair specPair
    cases rn with
    | none => simp [and_assoc]
    | some nd => simp [and_assoc])

/-- The valid-intersection predicate in the words of the specification, at
a pixel position of same-shaped rasters. -/
def specValid (pred ref : Raster) (refNodata : Option ℤ) (r c : Nat) : Prop :=
  (ref.data r c = 0 ∨ ref.data r c = 1) ∧
  (∀ nd, refNodata = some nd → ref.data r c ≠ nd) ∧
  (pred.data r c = 0 ∨ pred.data r c = 1)

instance (pred ref : Raster) (rn : Option ℤ) (r c : Nat) :
    Decidable (specValid pred ref rn r c) :=
  decidable_of_iff (validPair rn (pred.data r c, ref.data r c) = true) (by
    unfold validPair specValid
    cases rn with
    | none => simp [and_assoc]
    | some nd => simp [and_assoc])

/-- All pixel positions of an `h × w` raster, in row-major order. -/
def pixelList (h w : Nat) : List (Nat × Nat) :=
  (List.range h).flatMap (fun r => (List.range w).map (fun c => (r, c)))

/-- All pixel positions of an `h × w` raster, as a set. -/
def pixelFinset (h w : Nat) : Finset (Nat × Nat) := Finset.range h ×ˢ Finset.range w

/-- The number of aligned element pairs satisfying a predicate. -/
def specCount (l : List (ℤ × ℤ)) (P : ℤ × ℤ → Prop) [DecidablePred P] : Nat :=
  (l.filter (fun x => decide (P x))).length

/-- A 1×1 raster whose only pixel is 1 (concrete instantiation). -/
def onesRaster : Raster := { h := 1, w := 1, data := fun _ _ => 1 }

/-- A 2×1 raster of ones (concrete instantiation). -/
def tallOnes : Raster := { h := 2, w := 1, data := fun _ _ => 1 }

/-- A 1×2 raster of ones (concrete instantiation). -/
def wideOnes : Raster := { h := 1, w := 2, data := fun _ _ => 1 }

/-! ## Helper lemmas -/

/-- A filter over `List.range n` whose predicate holds exactly at `k < n`
yields the singleton `[k]`. -/
theorem filter_range_singleton {p : Nat → Bool} {n k : Nat} (hk : k < n)
    (h : ∀ i, i < n → (p i = true ↔ i = k)) :
    (List.range n).filter p = [k] := by
  induction n with
  | zero => omega
  | succ n ih =>
    rw [List.range_succ, List.filter_append]
    rcases Nat.lt_succ_iff_lt_or_eq.mp hk with hlt | heq
    · rw [ih hlt (fun i hi => h i (Nat.lt_succ_of_lt hi))]
      have hn : p n = false := by
        rcases Bool.eq_false_or_eq_true (p n) with ht | hf
        · exact absurd ((h n (Nat.lt_succ_self n)).mp ht) (by omega)
        · exact hf
      simp [hn]
    · subst heq
      have hnil : (List.range k).filter p = [] := by
        refine List.filter_eq_nil_iff.mpr (fun a ha hpa => ?_)
        have halt := List.mem_range.mp ha
        exact absurd ((h a (Nat.lt_succ_of_lt halt)).mp hpa) (by omega)
      have hk' : p k = true := (h k hk).mpr rfl
      simp [hnil, hk']

/-- Filtering a row-major product list by a predicate that splits into a
row predicate and a column predicate equals the product of the filtered
factors. -/
theorem filter_flatMap_prod {α β : Type} (l₁ : List α) (l₂ : List β)
    (p : α → Bool) (q : β → Bool) :
    (l₁.flatMap (fun a => l₂.map (fun b => (a, b)))).filter
        (fun o => p o.1 && q o.2) =
      (l₁.filter p).flatMap (fun a => (l₂.filter q).map (fun b => (a, b))) := by
  induction l₁ with
  | nil => rfl
  | cons a t ih =>
    rw [List.flatMap_cons, List.filter_append, ih, List.filter_map]
    rcases Bool.eq_false_or_eq_true (p a) with hpa | hpa
    · rw [List.filter_cons_of_pos (by simp [hpa]), List.flatMap_cons]
      congr 1
      congr 1
      refine List.filter_congr (fun b _ => ?_)
      simp [hpa]
    · rw [List.filter_cons_of_neg (by simp [hpa])]
      have hnil : l₂.filter ((fun o : α × β => p o.1 && q o.2) ∘ fun b => (a, b)) = [] := by
        refine List.filter_eq_nil_iff.mpr (fun b _ hb => ?_)
        simp [hpa] at hb
      rw [hnil]
      rfl

/-- At stride equal to the tile size, exactly one generated row origin
covers each row `r < H`, namely `r / P * P`. -/
theorem rowOrigins_filter_covers {H P r : Nat} (hP : 1 ≤ P) (hr : r < H) :
    (rowOrigins H P).filter (fun ro => rowCovers H P ro r) = [r / P * P] := by
  unfold rowOrigins
  rw [List.filter_map]
  have h1 : (List.range ((H + P - 1) / P)).filter
      ((fun ro => rowCovers H P ro r) ∘ fun i => i * P) = [r / P] := by
    apply filter_range_singleton
    · have h2 : r / P ≤ (H - 1) / P := Nat.div_le_div_right (by omega)
      have h4 : H + P - 1 = H - 1 + P := by omega
      have h3 : (H + P - 1) / P = (H - 1) / P + 1 := by
        rw [h4]
        exact Nat.add_div_right _ hP
      omega
    · intro i _
      simp only [Function.comp_apply, rowCovers, decide_eq_true_eq, Nat.zero_max, Nat.lt_min]
      constructor
      · rintro ⟨h5, _, h6⟩
        have h9 : i ≤ r / P := (Nat.le_div_iff_mul_le hP).mpr h5
        have h12 : (i + 1) * P = i * P + P := Nat.succ_mul i P
        have h10 : r / P < i + 1 := (Nat.div_lt_iff_lt_mul hP).mpr (by omega)
        omega
      · rintro rfl
        have h7 := Nat.div_mul_le_self r P
        have h8 := Nat.div_add_mod r P
        have h9 : r % P < P := Nat.mod_lt _ (by omega)
        have h11 : r / P * P = P * (r / P) := Nat.mul_comm _ _
        exact ⟨h7, hr, by omega⟩
  rw [h1]
  rfl

/-- At stride equal to the tile size, each pixel is covered by exactly the
tile at origin `(r / P * P, c / P * P)`. -/
theorem coveringTiles_stride_eq_tile {H W P r c : Nat} (hP : 1 ≤ P)
    (hr : r < H) (hc : c < W) :
    coveringTiles H W P P r c = [(r / P * P, c / P * P)] := by
  unfold coveringTiles tileOrigins
  have h := filter_flatMap_prod (rowOrigins H P) (rowOrigins W P)
    (fun ro => rowCovers H P ro r) (fun co => rowCovers W P co c)
  simp only [tileCovers] at *
  rw [h, rowOrigins_filter_covers hP hr, rowOrigins_filter_covers hP hc]
  rfl

/-- Subtracting the aligned origin from a coordinate yields the remainder. -/
theorem sub_div_mul {r P : Nat} : r - r / P * P = r % P := by
  have h8 := Nat.div_add_mod r P
  have h11 : r / P * P = P * (r / P) := Nat.mul_comm _ _
  omega

/-- For any stride `S` with `1 ≤ S ≤ P`, the origin `r / S * S` is
generated and its tile covers row `r < H`. -/
theorem self_row_mem {H S P r : Nat} (hS : 1 ≤ S) (hSP : S ≤ P) (hr : r < H) :
    r / S * S ∈ rowOrigins H S ∧ rowCovers H P (r / S * S) r = true := by
  constructor
  · refine List.mem_map.mpr ⟨r / S, List.mem_range.mpr ?_, rfl⟩
    have h2 : r / S ≤ (H - 1) / S := Nat.div_le_div_right (by omega)
    have h4 : H + S - 1 = H - 1 + S := by omega
    have h3 : (H + S - 1) / S = (H - 1) / S + 1 := by
      rw [h4]
      exact Nat.add_div_right _ hS
    omega
  · simp only [rowCovers, decide_eq_true_eq, Nat.zero_max, Nat.lt_min]
    have h7 := Nat.div_mul_le_self r S
    have h8 : r - r / S * S = r % S := sub_div_mul
    have h9 : r % S < S := Nat.mod_lt _ (by omega)
    exact ⟨h7, hr, by omega⟩

/-- Characterization of membership in `rowOrigins`. -/
theorem mem_rowOrigins_iff {H S : Nat} (hS : 1 ≤ S) (ro : Nat) :
    ro ∈ rowOrigins H S ↔ (∃ i, ro = i * S) ∧ ro < H := by
  constructor
  · intro h
    rcases List.mem_map.mp h with ⟨i, hi, rfl⟩
    have hin := List.mem_range.mp hi
    refine ⟨⟨i, rfl⟩, ?_⟩
    have h5 : (i + 1) * S ≤ (H + S - 1) / S * S :=
      Nat.mul_le_mul_right S hin
    have h6 : (H + S - 1) / S * S ≤ H + S - 1 := Nat.div_mul_le_self _ _
    have h7 : (i + 1) * S = i * S + S := Nat.succ_mul i S
    omega
  · rintro ⟨⟨i, rfl⟩, hlt⟩
    refine List.mem_map.mpr ⟨i, List.mem_range.mpr ?_, rfl⟩
    have h9 : i ≤ (H - 1) / S := (Nat.le_div_iff_mul_le hS).mpr (by omega)
    have h4 : H + S - 1 = H - 1 + S := by omega
    have h3 : (H + S - 1) / S = (H - 1) / S + 1 := by
      rw [h4]
      exact Nat.add_div_right _ hS
    omega

/-- The generated row origins are strictly increasing. -/
theorem rowOrigins_pairwise (H S : Nat) (hS : 1 ≤ S) :
    (rowOrigins H S).Pairwise (· < ·) := by
  refine List.pairwise_map.mpr ?_
  refine (List.pairwise_lt_range _).imp ?_
  intro i j hij
  exact (Nat.mul_lt_mul_right (by omega)).mpr hij

/-- A product of strictly increasing lists, enumerated rows first, is
strictly increasing in the row-major order. -/
theorem flatMap_prod_pairwise {l₁ l₂ : List Nat}
    (h₁ : l₁.Pairwise (· < ·)) (h₂ : l₂.Pairwise (· < ·)) :
    (l₁.flatMap (fun a => l₂.map (fun b => (a, b)))).Pairwise rowMajorLt := by
  induction l₁ with
  | nil => exact List.Pairwise.nil
  | cons a t ih =>
    rw [List.flatMap_cons]
    rcases List.pairwise_cons.mp h₁ with ⟨ha, ht⟩
    refine List.pairwise_append.mpr ⟨?_, ih ht, ?_⟩
    · refine List.pairwise_map.mpr (h₂.imp ?_)
      intro x y hxy
      exact Or.inr ⟨rfl, hxy⟩
    · intro x hx y hy
      rcases List.mem_map.mp hx with ⟨b, _, rfl⟩
      rcases List.mem_flatMap.mp hy with ⟨a', ha', hy'⟩
      rcases List.mem_map.mp hy' with ⟨b', _, rfl⟩
      exact Or.inl (ha a' ha')

/-- The clipped rescale always lands in the unit interval. -/
theorem clip01_bounds (x : ℚ) : 0 ≤ clip01 x ∧ clip01 x ≤ 1 :=
  ⟨le_min (le_max_right x 0) zero_le_one, min_le_right _ _⟩

/-- A NaN NDVI pixel is written as no-data regardless of the valid mask. -/
theorem wooded_pixel_none (valid : Bool) (thr : ℚ) :
    wooded_pixel none valid thr = 255 := rfl

/-- A defined NDVI pixel is thresholded, then overwritten when invalid. -/
theorem wooded_pixel_some (v : ℚ) (valid : Bool) (thr : ℚ) :
    wooded_pixel (some v) valid thr =
      if valid = true then (if v > thr then 1 else 0) else 255 := rfl

/-- The Boolean valid mask agrees with the specification's predicate at
each aligned element pair. -/
theorem validPair_iff (rn : Option ℤ) (x : ℤ × ℤ) :
    validPair rn x = true ↔ specPair rn x := by
  unfold validPair specPair
  cases rn with
  | none => simp [and_assoc]
  | some nd => simp [and_assoc]

/-- A Boolean count equals the specification-level count when the
predicates agree pointwise. -/
theorem countP_eq_specCount {P : ℤ × ℤ → Prop} [DecidablePred P] (b : ℤ × ℤ → Bool)
    (h : ∀ x, b x = true ↔ P x) (l : List (ℤ × ℤ)) : l.countP b = specCount l P := by
  unfold specCount
  rw [List.countP_eq_length_filter]
  congr 1
  refine List.filter_congr (fun x _ => ?_)
  rw [Bool.eq_iff_iff, h, decide_eq_true_eq]

/-- An element predicate and its negation partition the element list. -/
theorem countP_not_add {α : Type} (l : List α) (p : α → Bool) :
    l.countP p + l.countP (fun a => ! p a) = l.length := by
  induction l with
  | nil => rfl
  | cons a t ih =>
    simp only [List.countP_cons, List.length_cons]
    cases h : p a <;> simp [h] <;> omega

/-- Every valid element pair falls in exactly one confusion cell, so the
four counts partition the valid count. -/
theorem countP_pair_partition (rn : Option ℤ) (l : List (ℤ × ℤ)) :
    l.countP (validPair rn) =
      l.countP (fun x => validPair rn x && (x.2 == 1) && (x.1 == 1)) +
      l.countP (fun x => validPair rn x && (x.2 == 0) && (x.1 == 0)) +
      l.countP (fun x => validPair rn x && (x.2 == 0) && (x.1 == 1)) +
      l.countP (fun x => validPair rn x && (x.2 == 1) && (x.1 == 0)) := by
  induction l with
  | nil => rfl
  | cons a t ih =>
    simp only [List.countP_cons]
    by_cases hv : validPair rn a = true
    · rcases (validPair_iff rn a).mp hv with ⟨hr01, _, hp01⟩
      rcases hr01 with hr | hr <;> rcases hp01 with hp | hp <;>
        simp [hv, hr, hp] <;> omega
    · have hv' : validPair rn a = false := Bool.not_eq_true _ |>.mp hv
      simp [hv']
      omega

/-- Row-major flattening is the pixel enumeration mapped through the data
plane. -/
theorem flatten_eq_map (a : Raster) :
    flatten a = (pixelList a.h a.w).map (fun x => a.data x.1 x.2) := by
  unfold flatten pixelList
  rw [List.map_flatMap]
  refine congrArg _ (funext fun r => ?_)
  rw [List.map_map]
  rfl

/-- The pixel enumeration has no duplicates. -/
theorem pixelList_nodup (h w : Nat) : (pixelList h w).Nodup := by
  have hp := flatMap_prod_pairwise (List.pairwise_lt_range h) (List.pairwise_lt_range w)
  refine hp.imp ?_
  intro a b hab heq
  subst heq
  rcases hab with h1 | ⟨_, h2⟩
  · exact absurd h1 (lt_irrefl _)
  · exact absurd h2 (lt_irrefl _)

/-- The pixel enumeration enumerates exactly the pixel set. -/
theorem pixelList_toFinset (h w : Nat) : (pixelList h w).toFinset = pixelFinset h w := by
  ext x
  simp only [pixelList, pixelFinset, List.mem_toFinset, List.mem_flatMap, List.mem_map,
    List.mem_range, Finset.mem_product, Finset.mem_range]
  constructor
  · rintro ⟨a, ha, b, hb, rfl⟩
    exact ⟨ha, hb⟩
  · rintro ⟨h1, h2⟩
    exact ⟨x.1, h1, x.2, h2, rfl⟩

/-- A count over the pixel enumeration is a cardinality over the pixel
set. -/
theorem countP_pixelList (h w : Nat) (p : Nat × Nat → Bool) :
    (pixelList h w).countP p = ((pixelFinset h w).filter (fun x => p x = true)).card := by
  rw [List.countP_eq_length_filter]
  rw [← List.toFinset_card_of_nodup ((pixelList_nodup h w).filter p)]
  rw [List.toFinset_filter, pixelList_toFinset]

/-- The pixel enumeration has `h * w` entries. -/
theorem pixelList_length (h w : Nat) : (pixelList h w).length = h * w := by
  rw [← List.toFinset_card_of_nodup (pixelList_nodup h w), pixelList_toFinset,
    pixelFinset, Finset.card_product, Finset.card_range, Finset.card_range]

/-- For same-shaped rasters, the zipped flattened arrays are the pixelwise
value pairs in row-major order. -/
theorem pairs_eq_map (pred ref : Raster) (h1 : pred.h = ref.h) (h2 : pred.w = ref.w) :
    (flatten pred).zip (flatten ref) =
      (pixelList ref.h ref.w).map (fun x => (pred.data x.1 x.2, ref.data x.1 x.2)) := by
  rw [flatten_eq_map, flatten_eq_map, h1, h2, List.zip_map']

/-- Filtering out the 1-axes keeps a leading non-1 axis. -/
theorem filter_ne_one_cons {d : Nat} (l : List Nat) (hd : d ≠ 1) :
    (d :: l).filter (fun x => x ≠ 1) = d :: l.filter (fun x => x ≠ 1) := by
  simp [List.filter_cons, hd]

/-- Filtering out the 1-axes drops a leading 1-axis. -/
theorem filter_ne_one_cons_one (l : List Nat) :
    ((1 : Nat) :: l).filter (fun x => x ≠ 1) = l.filter (fun x => x ≠ 1) := by
  simp [List.filter_cons]

end WoodedMapping

namespace WoodedMapping

/-! ## Claims -/

/-- Claim C1: for every raster of height `H ≥ 1` and width `W ≥ 1` and
every classifier output, when the reconstruction stride equals the tile
size `P`, after all tiles are accumulated every pixel's coverage count is
exactly 1, and the normalized probability raster equals the raw per-tile
classifier output copied into place — the value of the unique covering
tile at origin `(r / P * P, c / P * P)`, local offset `(r % P, c % P)` —
with no averaging. -/
theorem stride_eq_tile_size_reconstruction (H W P : Nat)
    (hH : 1 ≤ H) (hW : 1 ≤ W) (hP : 1 ≤ P)
    (f : Nat × Nat → Nat → Nat → ℚ) (r c : Nat) (hr : r < H) (hc : c < W) :
    coverageCount H W P P r c = 1 ∧
      normProb H W P P f r c = f (r / P * P, c / P * P) (r % P) (c % P) := by
  have hHW : 1 ≤ H * W := Nat.one_le_iff_ne_zero.mpr (by positivity)
  have h := coveringTiles_stride_eq_tile hP hr hc
  constructor
  · rw [coverageCount, h]
    rfl
  · rw [normProb, probSum, coverageCount, h]
    simp [sub_div_mul]

/-- Witness for C1 at `H = W = 3`, `P = 2`, pixel `(1, 2)`. -/
theorem stride_eq_tile_size_reconstruction_witness :
    coverageCount 3 3 2 2 1 2 = 1 ∧
      normProb 3 3 2 2 (fun o i j => (o.1 : ℚ) + o.2 + i + j) 1 2 =
        ((1 / 2 * 2 : Nat) : ℚ) + ((2 / 2 * 2 : Nat) : ℚ) +
          ((1 % 2 : Nat) : ℚ) + ((2 % 2 : Nat) : ℚ) :=
  stride_eq_tile_size_reconstruction 3 3 2 (by decide) (by decide) (by decide)
    (fun o i j => (o.1 : ℚ) + o.2 + i + j) 1 2 (by decide) (by decide)

/-- Claim C2 as stated is false: with the constant classifier output
`7/10` and stride 2 > tile size 1 on a 1×2 raster, pixel `(0, 1)` is never
covered, its count is treated as 1 and its normalized probability is 0,
not `7/10`. -/
theorem constant_classifier_counterexample :
    normProb 1 2 1 2 (fun _ _ _ => (7 : ℚ) / 10) 0 1 ≠ 7 / 10 := by
  have h : coveringTiles 1 2 1 2 0 1 = [] := by decide
  simp [normProb, probSum, coverageCount, h]
  norm_num

/-- Claim C2 (amended): if the classifier returns the same constant
probability `p` at every pixel of every tile, then for every stride `S`
with `1 ≤ S ≤ P` — which includes the 50% overlap the pipeline uses and
guarantees every pixel is covered — the normalized probability raster
equals exactly `p` at every pixel, regardless of each pixel's overlap
count. -/
theorem constant_classifier_covered_strides (H W P S : Nat) (p : ℚ)
    (hS : 1 ≤ S) (hSP : S ≤ P) (r c : Nat) (hr : r < H) (hc : c < W) :
    normProb H W P S (fun _ _ _ => p) r c = p := by
  have hmem : (r / S * S, c / S * S) ∈ coveringTiles H W P S r c := by
    refine List.mem_filter.mpr ⟨?_, ?_⟩
    · refine List.mem_flatMap.mpr
        ⟨r / S * S, (self_row_mem hS hSP hr).1,
          List.mem_map.mpr ⟨c / S * S, (self_row_mem hS hSP hc).1, rfl⟩⟩
    · simp only [tileCovers]
      rw [(self_row_mem hS hSP hr).2, (self_row_mem hS hSP hc).2]
      rfl
  have hlen : (coveringTiles H W P S r c).length ≠ 0 := by
    intro h0
    rw [List.length_eq_zero] at h0
    rw [h0] at hmem
    exact absurd hmem (List.not_mem_nil _)
  rw [normProb, probSum, coverageCount, if_neg hlen]
  have hmapc : (coveringTiles H W P S r c).map
      (fun o => (fun _ _ _ => p) o (r - o.1) (c - o.2)) =
      List.replicate (coveringTiles H W P S r c).length p := List.map_const _ p
  rw [hmapc, List.sum_replicate, nsmul_eq_mul]
  exact mul_div_cancel_left₀ p (Nat.cast_ne_zero.mpr hlen)

/-- Witness for the amended C2 at `H = W = P = 2`, `S = 1`, `p = 7/10`,
pixel `(1, 1)`. -/
theorem constant_classifier_covered_strides_witness :
    normProb 2 2 2 1 (fun _ _ _ => (7 : ℚ) / 10) 1 1 = 7 / 10 :=
  constant_classifier_covered_strides 2 2 2 1 (7 / 10) (by decide) (by decide)
    1 1 (by decide) (by decide)

/-- Claim C3: tile origins are exactly the pairs `(row, col)` with `row` a
multiple of `S` below `H` and `col` a multiple of `S` below `W`, enumerated
in row-major order; for an origin `(ro, co)` the readable extent is
`r0 = max(0, ro)`, `r1 = min(H, ro + P)`, `c0 = max(0, co)`,
`c1 = min(W, co + P)`; the patch is the image on the readable extent and is
brought to size `P×P` by edge-replication (not zero-fill) of the nearest
valid pixel; in particular for `H = W = 10`, `P = 8`, `S = 4` the tile at
origin `(8, 8)` reads rows and columns `8:10` and pads 6 rows and 6 columns
by replicating the edge, e.g. the padded corner `(7, 7)` holds pixel
`(9, 9)`. -/
theorem tile_origins_extent_padding :
    (∀ H W S, 1 ≤ S → ∀ ro co,
        ((ro, co) ∈ tileOrigins H W S ↔
          ((∃ i, ro = i * S) ∧ ro < H ∧ (∃ j, co = j * S) ∧ co < W))) ∧
    (∀ H W S, 1 ≤ S → (tileOrigins H W S).Pairwise rowMajorLt) ∧
    (∀ H W P img ro co,
        (get_patch H W P img ro co).r0 = max 0 ro ∧
        (get_patch H W P img ro co).r1 = min H (ro + P) ∧
        (get_patch H W P img ro co).c0 = max 0 co ∧
        (get_patch H W P img ro co).c1 = min W (co + P)) ∧
    (∀ H W P img ro co i j,
        i < (get_patch H W P img ro co).r1 - (get_patch H W P img ro co).r0 →
        j < (get_patch H W P img ro co).c1 - (get_patch H W P img ro co).c0 →
        (get_patch H W P img ro co).val i j =
          img ((get_patch H W P img ro co).r0 + i)
            ((get_patch H W P img ro co).c0 + j)) ∧
    (∀ H W P img ro co i j,
        (get_patch H W P img ro co).val i j =
          img (min ((get_patch H W P img ro co).r0 + i)
                ((get_patch H W P img ro co).r1 - 1))
              (min ((get_patch H W P img ro co).c0 + j)
                ((get_patch H W P img ro co).c1 - 1))) ∧
    ((8, 8) ∈ tileOrigins 10 10 4) ∧
    (∀ img, (get_patch 10 10 8 img 8 8).r0 = 8 ∧ (get_patch 10 10 8 img 8 8).r1 = 10 ∧
        (get_patch 10 10 8 img 8 8).c0 = 8 ∧ (get_patch 10 10 8 img 8 8).c1 = 10 ∧
        8 + 8 - (get_patch 10 10 8 img 8 8).r1 = 6 ∧
        8 + 8 - (get_patch 10 10 8 img 8 8).c1 = 6 ∧
        (get_patch 10 10 8 img 8 8).val 7 7 = img 9 9) := by
  refine ⟨?_, ?_, ?_, ?_, ?_, ?_, ?_⟩
  · intro H W S hS ro co
    constructor
    · intro h
      rcases List.mem_flatMap.mp h with ⟨a, ha, hmem⟩
      rcases List.mem_map.mp hmem with ⟨b, hb, heq⟩
      rw [Prod.mk.injEq] at heq
      rcases heq with ⟨rfl, rfl⟩
      rcases (mem_rowOrigins_iff hS a).mp ha with ⟨hi, hroH⟩
      rcases (mem_rowOrigins_iff hS b).mp hb with ⟨hj, hcoW⟩
      exact ⟨hi, hroH, hj, hcoW⟩
    · rintro ⟨hi, hroH, hj, hcoW⟩
      exact List.mem_flatMap.mpr
        ⟨ro, (mem_rowOrigins_iff hS ro).mpr ⟨hi, hroH⟩,
          List.mem_map.mpr ⟨co, (mem_rowOrigins_iff hS co).mpr ⟨hj, hcoW⟩, rfl⟩⟩
  · intro H W S hS
    exact flatMap_prod_pairwise (rowOrigins_pairwise H S hS) (rowOrigins_pairwise W S hS)
  · intro H W P img ro co
    exact ⟨rfl, rfl, rfl, rfl⟩
  · intro H W P img ro co i j hi hj
    simp only [get_patch] at *
    rw [Nat.min_eq_left (by omega), Nat.min_eq_left (by omega)]
  · intro H W P img ro co i j
    rfl
  · have hto : tileOrigins 10 10 4 =
        [(0, 0), (0, 4), (0, 8), (4, 0), (4, 4), (4, 8), (8, 0), (8, 4), (8, 8)] := rfl
    rw [hto]
    simp
  · intro img
    refine ⟨rfl, rfl, rfl, rfl, rfl, rfl, rfl⟩

/-- Witness for C3: the origin characterization applied at
`H = W = 10`, `S = 4`, origin `(8, 8)`. -/
theorem tile_origins_extent_padding_witness :
    (8, 8) ∈ tileOrigins 10 10 4 :=
  (tile_origins_extent_padding.1 10 10 4 (by decide) 8 8).mpr
    ⟨⟨2, rfl⟩, by decide, ⟨2, rfl⟩, by decide⟩

/-- Claim C4: thresholding maps every valid pixel with probability
strictly greater than `1/2` to WOODED(1) and every other valid pixel
(including probability exactly `1/2`) to NON_WOODED(0), and every invalid
pixel to the NODATA sentinel 255 regardless of probability; every pixel of
the resulting mask is exactly one of `{1, 0, 255}`, and in the tiled
pipeline a pixel is 255 iff it is invalid, while in the single-image NDVI
pipeline a pixel is 255 iff it is invalid or its NDVI is undefined. -/
theorem thresholder_ternary_invariants :
    (∀ (prob : Plane) (valid : Nat → Nat → Bool) (r c : Nat),
        valid r c = true → 1 / 2 < prob r c → ternaryMask prob valid r c = 1) ∧
    (∀ (prob : Plane) (valid : Nat → Nat → Bool) (r c : Nat),
        valid r c = true → prob r c ≤ 1 / 2 → ternaryMask prob valid r c = 0) ∧
    (∀ (prob : Plane) (valid : Nat → Nat → Bool) (r c : Nat),
        valid r c = false → ternaryMask prob valid r c = 255) ∧
    (∀ (prob : Plane) (valid : Nat → Nat → Bool) (r c : Nat),
        ternaryMask prob valid r c = 1 ∨ ternaryMask prob valid r c = 0 ∨
          ternaryMask prob valid r c = 255) ∧
    (∀ (prob : Plane) (valid : Nat → Nat → Bool) (r c : Nat),
        ternaryMask prob valid r c = 255 ↔ valid r c = false) ∧
    (∀ (red nir : Plane) (valid : Nat → Nat → Bool) (thr : ℚ) (r c : Nat),
        wooded_pixel (compute_ndvi (red r c) (nir r c)) (valid r c) thr = 1 ∨
          wooded_pixel (compute_ndvi (red r c) (nir r c)) (valid r c) thr = 0 ∨
          wooded_pixel (compute_ndvi (red r c) (nir r c)) (valid r c) thr = 255) ∧
    (∀ (red nir : Plane) (valid : Nat → Nat → Bool) (thr : ℚ) (r c : Nat),
        wooded_pixel (compute_ndvi (red r c) (nir r c)) (valid r c) thr = 255 ↔
          (valid r c = false ∨ nir r c + red r c = 0)) := by
  refine ⟨?_, ?_, ?_, ?_, ?_, ?_, ?_⟩
  · intro prob valid r c hv hp
    rw [ternaryMask, if_pos hv, if_pos hp]
  · intro prob valid r c hv hp
    rw [ternaryMask, if_pos hv, if_neg (not_lt.mpr hp)]
  · intro prob valid r c hv
    rw [ternaryMask, hv]
    rfl
  · intro prob valid r c
    rw [ternaryMask]
    rcases Bool.eq_false_or_eq_true (valid r c) with hv | hv <;> rw [hv]
    · by_cases hp : 1 / 2 < prob r c
      · exact Or.inl (by rw [if_pos rfl, if_pos hp])
      · exact Or.inr (Or.inl (by rw [if_pos rfl, if_neg hp]))
    · exact Or.inr (Or.inr rfl)
  · intro prob valid r c
    rw [ternaryMask]
    rcases Bool.eq_false_or_eq_true (valid r c) with hv | hv <;> rw [hv]
    · simp only [if_pos rfl]
      constructor
      · intro h
        by_cases hp : 1 / 2 < prob r c
        · rw [if_pos hp] at h
          exact absurd h (by decide)
        · rw [if_neg hp] at h
          exact absurd h (by decide)
      · intro h
        simp at h
    · simp
  · intro red nir valid thr r c
    by_cases h : nir r c + red r c = 0
    · rw [compute_ndvi, if_pos h, wooded_pixel_none]
      exact Or.inr (Or.inr rfl)
    · rw [compute_ndvi, if_neg h, wooded_pixel_some]
      rcases Bool.eq_false_or_eq_true (valid r c) with hv | hv <;> rw [hv]
      · by_cases hp : (nir r c - red r c) / (nir r c + red r c) > thr
        · rw [if_pos rfl, if_pos hp]
          exact Or.inl rfl
        · rw [if_pos rfl, if_neg hp]
          exact Or.inr (Or.inl rfl)
      · rw [if_neg (by simp)]
        exact Or.inr (Or.inr rfl)
  · intro red nir valid thr r c
    by_cases h : nir r c + red r c = 0
    · rw [compute_ndvi, if_pos h, wooded_pixel_none]
      simp [h]
    · rw [compute_ndvi, if_neg h, wooded_pixel_some]
      rcases Bool.eq_false_or_eq_true (valid r c) with hv | hv <;> rw [hv]
      · rw [if_pos rfl]
        by_cases hp : (nir r c - red r c) / (nir r c + red r c) > thr
        · rw [if_pos hp]
          simp [hv, h]
        · rw [if_neg hp]
          simp [hv, h]
      · rw [if_neg (by simp)]
        simp [hv]

/-- Witness for C4: a valid pixel with probability 1 is mapped to 1. -/
theorem thresholder_ternary_invariants_witness :
    ternaryMask (fun _ _ => 1) (fun _ _ => true) 0 0 = 1 :=
  thresholder_ternary_invariants.1 (fun _ _ => 1) (fun _ _ => true) 0 0 rfl
    (by norm_num)

end WoodedMapping

namespace WoodedMapping

/-- Claim C5: every derived statistic with a zero denominator is defined
as 0 rather than raising: accuracy is 0 when `n = 0`, precision 0 when
`tp + fp = 0`, recall 0 when `tp + fn = 0`, F1 is 0 when
`precision + recall = 0`, kappa is 0 when `1 - pe = 0`; in particular
`tp = 10, tn = fp = fn = 0` yields `pe = 1` and `kappa = 0`, while
`tp = tn = 5, fp = fn = 0` yields accuracy, precision, recall, F1 and
kappa all equal to 1. -/
theorem metrics_zero_denominator_policy :
    (∀ tp tn : Nat, accuracyVal tp tn 0 = 0) ∧
    (∀ tp fp : Nat, tp + fp = 0 → precisionVal tp fp = 0) ∧
    (∀ tp fn : Nat, tp + fn = 0 → recallVal tp fn = 0) ∧
    (∀ p r : ℚ, p + r = 0 → f1Val p r = 0) ∧
    (∀ po pe : ℚ, 1 - pe = 0 → kappaVal po pe = 0) ∧
    (peVal 10 0 0 0 10 = 1 ∧
      kappaVal (accuracyVal 10 0 10) (peVal 10 0 0 0 10) = 0) ∧
    (accuracyVal 5 5 10 = 1 ∧ precisionVal 5 0 = 1 ∧ recallVal 5 0 = 1 ∧
      f1Val (precisionVal 5 0) (recallVal 5 0) = 1 ∧
      kappaVal (accuracyVal 5 5 10) (peVal 5 5 0 0 10) = 1) := by
  refine ⟨?_, ?_, ?_, ?_, ?_, ⟨?_, ?_⟩, ?_, ?_, ?_, ?_, ?_⟩
  · intro tp tn
    rw [accuracyVal, if_neg (by omega)]
  · intro tp fp h
    rw [precisionVal, if_neg (by omega)]
  · intro tp fn h
    rw [recallVal, if_neg (by omega)]
  · intro p r h
    rw [f1Val, if_neg (by rw [h]; exact lt_irrefl 0)]
  · intro po pe h
    rw [kappaVal, if_neg (by rw [h]; exact fun hc => hc rfl)]
  · norm_num [peVal]
  · norm_num [kappaVal, peVal, accuracyVal]
  · norm_num [accuracyVal]
  · norm_num [precisionVal]
  · norm_num [recallVal]
  · norm_num [f1Val, precisionVal, recallVal]
  · norm_num [kappaVal, peVal, accuracyVal]

/-- Witness for C5: division-by-zero guards applied at concrete counts. -/
theorem metrics_zero_denominator_policy_witness :
    precisionVal 0 0 = 0 ∧ kappaVal 1 1 = 0 :=
  ⟨metrics_zero_denominator_policy.2.1 0 0 rfl,
    metrics_zero_denominator_policy.2.2.2.2.1 1 1 (by norm_num)⟩

/-- Claim C6 as stated is false: the code squeezes both rasters before the
shape check, so a 2×1 predicted raster and a 1×2 reference raster — whose
shapes differ — both squeeze to shape `(2,)`, raise no error, and are
silently counted (here both all-ones, giving `tp = 2`). -/
theorem confusion_shape_check_counterexample :
    (compute_accuracy_metrics tallOnes wideOnes 255 none).isOk = true ∧
    (compute_accuracy_metrics tallOnes wideOnes 255 none).toOption.map EvalResult.tp =
      some 2 :=
  ⟨rfl, rfl⟩

/-- Claim C6 (amended): both rasters are first squeezed (singleton axes
dropped); when the squeezed shapes agree the evaluator succeeds and its
confusion counts are exactly the counts, over the valid intersection of
aligned elements (reference class in `{0, 1}`, reference not equal to the
reference no-data value, predicted class in `{0, 1}` — which excludes any
predicted no-data sentinel), of the four reference/predicted cells; the
valid count equals `tp + tn + fp + fn` and together with the skipped count
exhausts the element pairs; rasters whose squeezed shapes differ yield the
shape-mismatch error before any counting; and for rasters of identical
(unsqueezed) shape the counts are exactly the pixelwise counts over the
valid intersection. -/
theorem confusion_counts_valid_intersection (pred ref : Raster) (pn : ℤ)
    (rn : Option ℤ) :
    (squeezeShape pred.h pred.w = squeezeShape ref.h ref.w →
      ∃ res, compute_accuracy_metrics pred ref pn rn = Except.ok res ∧
        res.tp = specCount ((flatten pred).zip (flatten ref))
          (fun x => specPair rn x ∧ x.2 = 1 ∧ x.1 = 1) ∧
        res.tn = specCount ((flatten pred).zip (flatten ref))
          (fun x => specPair rn x ∧ x.2 = 0 ∧ x.1 = 0) ∧
        res.fp = specCount ((flatten pred).zip (flatten ref))
          (fun x => specPair rn x ∧ x.2 = 0 ∧ x.1 = 1) ∧
        res.fn = specCount ((flatten pred).zip (flatten ref))
          (fun x => specPair rn x ∧ x.2 = 1 ∧ x.1 = 0) ∧
        res.n_valid = specCount ((flatten pred).zip (flatten ref)) (specPair rn) ∧
        res.n_valid = res.tp + res.tn + res.fp + res.fn ∧
        res.n_valid + res.n_skip = ((flatten pred).zip (flatten ref)).length) ∧
    (squeezeShape pred.h pred.w ≠ squeezeShape ref.h ref.w →
      compute_accuracy_metrics pred ref pn rn =
        Except.error ("Predicted and reference rasters must have the same shape.")) ∧
    (pred.h = ref.h → pred.w = ref.w →
      ∃ res, compute_accuracy_metrics pred ref pn rn = Except.ok res ∧
        res.tp = ((pixelFinset ref.h ref.w).filter
          (fun x => specValid pred ref rn x.1 x.2 ∧
            ref.data x.1 x.2 = 1 ∧ pred.data x.1 x.2 = 1)).card ∧
        res.tn = ((pixelFinset ref.h ref.w).filter
          (fun x => specValid pred ref rn x.1 x.2 ∧
            ref.data x.1 x.2 = 0 ∧ pred.data x.1 x.2 = 0)).card ∧
        res.fp = ((pixelFinset ref.h ref.w).filter
          (fun x => specValid pred ref rn x.1 x.2 ∧
            ref.data x.1 x.2 = 0 ∧ pred.data x.1 x.2 = 1)).card ∧
        res.fn = ((pixelFinset ref.h ref.w).filter
          (fun x => specValid pred ref rn x.1 x.2 ∧
            ref.data x.1 x.2 = 1 ∧ pred.data x.1 x.2 = 0)).card ∧
        res.n_valid = ((pixelFinset ref.h ref.w).filter
          (fun x => specValid pred ref rn x.1 x.2)).card ∧
        res.n_valid = res.tp + res.tn + res.fp + res.fn ∧
        res.n_valid + res.n_skip = ref.h * ref.w) := by
  refine ⟨?_, ?_, ?_⟩
  · intro hsq
    rw [compute_accuracy_metrics, if_pos hsq]
    refine ⟨_, rfl, ?_, ?_, ?_, ?_, ?_, ?_, ?_⟩
    · exact countP_eq_specCount _ (fun x => by
        simp [validPair_iff, and_assoc]) _
    · exact countP_eq_specCount _ (fun x => by
        simp [validPair_iff, and_assoc]) _
    · exact countP_eq_specCount _ (fun x => by
        simp [validPair_iff, and_assoc]) _
    · exact countP_eq_specCount _ (fun x => by
        simp [validPair_iff, and_assoc]) _
    · exact countP_eq_specCount _ (fun x => validPair_iff rn x) _
    · exact countP_pair_partition rn _
    · exact countP_not_add _ _
  · intro hne
    rw [compute_accuracy_metrics, if_neg hne]
  · intro h1 h2
    have hsq : squeezeShape pred.h pred.w = squeezeShape ref.h ref.w := by rw [h1, h2]
    have hpairs := pairs_eq_map pred ref h1 h2
    rw [compute_accuracy_metrics, if_pos hsq]
    refine ⟨_, rfl, ?_, ?_, ?_, ?_, ?_, ?_, ?_⟩
    · show ((flatten pred).zip (flatten ref)).countP _ = _
      rw [hpairs, List.countP_map, countP_pixelList]
      refine congrArg Finset.card (Finset.filter_congr (fun x _ => ?_))
      simp [Function.comp, validPair_iff, specPair, specValid, and_assoc]
    · show ((flatten pred).zip (flatten ref)).countP _ = _
      rw [hpairs, List.countP_map, countP_pixelList]
      refine congrArg Finset.card (Finset.filter_congr (fun x _ => ?_))
      simp [Function.comp, validPair_iff, specPair, specValid, and_assoc]
    · show ((flatten pred).zip (flatten ref)).countP _ = _
      rw [hpairs, List.countP_map, countP_pixelList]
      refine congrArg Finset.card (Finset.filter_congr (fun x _ => ?_))
      simp [Function.comp, validPair_iff, specPair, specValid, and_assoc]
    · show ((flatten pred).zip (flatten ref)).countP _ = _
      rw [hpairs, List.countP_map, countP_pixelList]
      refine congrArg Finset.card (Finset.filter_congr (fun x _ => ?_))
      simp [Function.comp, validPair_iff, specPair, specValid, and_assoc]
    · show ((flatten pred).zip (flatten ref)).countP _ = _
      rw [hpairs, List.countP_map, countP_pixelList]
      refine congrArg Finset.card (Finset.filter_congr (fun x _ => ?_))
      simp [Function.comp, validPair_iff, specPair, specValid, and_assoc]
    · exact countP_pair_partition rn _
    · show ((flatten pred).zip (flatten ref)).countP _ +
          ((flatten pred).zip (flatten ref)).countP _ = ref.h * ref.w
      rw [countP_not_add, hpairs, List.length_map, pixelList_length]

/-- Witness for the amended C6: the pixelwise characterization on a
concrete 1×1 pair, and the squeezed-shape error on a 2×1 against a 1×1. -/
theorem confusion_counts_valid_intersection_witness :
    (∃ res, compute_accuracy_metrics onesRaster onesRaster 255 none = Except.ok res ∧
      res.tp = ((pixelFinset onesRaster.h onesRaster.w).filter
        (fun x => specValid onesRaster onesRaster none x.1 x.2 ∧
          onesRaster.data x.1 x.2 = 1 ∧ onesRaster.data x.1 x.2 = 1)).card ∧
      res.tn = ((pixelFinset onesRaster.h onesRaster.w).filter
        (fun x => specValid onesRaster onesRaster none x.1 x.2 ∧
          onesRaster.data x.1 x.2 = 0 ∧ onesRaster.data x.1 x.2 = 0)).card ∧
      res.fp = ((pixelFinset onesRaster.h onesRaster.w).filter
        (fun x => specValid onesRaster onesRaster none x.1 x.2 ∧
          onesRaster.data x.1 x.2 = 0 ∧ onesRaster.data x.1 x.2 = 1)).card ∧
      res.fn = ((pixelFinset onesRaster.h onesRaster.w).filter
        (fun x => specValid onesRaster onesRaster none x.1 x.2 ∧
          onesRaster.data x.1 x.2 = 1 ∧ onesRaster.data x.1 x.2 = 0)).card ∧
      res.n_valid = ((pixelFinset onesRaster.h onesRaster.w).filter
        (fun x => specValid onesRaster onesRaster none x.1 x.2)).card ∧
      res.n_valid = res.tp + res.tn + res.fp + res.fn ∧
      res.n_valid + res.n_skip = onesRaster.h * onesRaster.w) ∧
    compute_accuracy_metrics tallOnes onesRaster 255 none =
      Except.error ("Predicted and reference rasters must have the same shape.") :=
  ⟨(confusion_counts_valid_intersection onesRaster onesRaster 255 none).2.2 rfl rfl,
    (confusion_counts_valid_intersection tallOnes onesRaster 255 none).2.1 (by decide)⟩

/-- Claim C7: NDVI equals `(nir - red) / (nir + red)` wherever
`nir + red ≠ 0` and is NaN where `nir + red = 0`; after the `(x + 1) / 2`
rescale clipped to `[0, 1]`, every pixel with `red = nir` and
`nir + red ≠ 0` yields exactly `1/2` in the emitted feature channel, and
every pixel with `nir + red = 0` yields the documented fallback value 0. -/
theorem ndvi_definition_and_fallback (red nir : ℚ) :
    (nir + red ≠ 0 → compute_ndvi red nir = some ((nir - red) / (nir + red))) ∧
    (nir + red = 0 → compute_ndvi red nir = none) ∧
    (red = nir → nir + red ≠ 0 → ndviChannel red nir = some (1 / 2)) ∧
    (nir + red = 0 → ndviChannel red nir = some 0) := by
  refine ⟨fun h => if_neg h, fun h => if_pos h, ?_, fun h => ?_⟩
  · rintro rfl h
    rw [ndviChannel, compute_ndvi, if_neg h]
    have hv : (red - red) / (red + red) = 0 := by
      rw [sub_self, zero_div]
    rw [rescale01, Option.map_some', hv, nan_to_num]
    norm_num [clip01]
  · rw [ndviChannel, compute_ndvi, if_pos h, rescale01, Option.map_none', nan_to_num]

/-- Witness for C7: equal bands give `1/2`; a zero denominator gives the
fallback 0. -/
theorem ndvi_definition_and_fallback_witness :
    ndviChannel 1 1 = some (1 / 2) ∧ ndviChannel 1 (-1) = some 0 :=
  ⟨(ndvi_definition_and_fallback 1 1).2.2.1 rfl (by norm_num),
    (ndvi_definition_and_fallback 1 (-1)).2.2.2 (by norm_num)⟩

/-- Claim C8 as stated is false: a single-band image with both spatial
dimensions above 1 does not raise a shape error — its shape `(1, H, W)`
squeezes to 2-D and `compute_features` replicates the lone band into four
identical bands (`img = np.stack([img] * 4)` after squeeze). -/
theorem low_band_count_counterexample :
    bandFix [1, 2, 2] = BandFix.replicate ∧
    selectBands [zeroPlane] = Except.ok [zeroPlane, zeroPlane, zeroPlane, zeroPlane] :=
  ⟨by decide, rfl⟩

/-- Claim C8 (amended): the 4-band check of `compute_features` is applied
to the numpy-squeezed array.  For an image whose spatial dimensions are
both above 1: a channel count of 0, 2 or 3 raises the shape error; a
single channel is instead replicated into four identical bands; more than
4 channels keeps only the first 4 (Blue, Green, Red, NIR), silently
dropping the rest; exactly 4 are used as-is.  With a singleton spatial
dimension the squeeze changes the branch taken: a 2- or 3-band image of
height 1 squeezes to 2-D and is replicated rather than rejected, and a
single-band 1×W row squeezes to 1-D where the check applies to W — error
for W < 4, silent truncation to the first 4 samples for W > 4. -/
theorem band_count_handling :
    (∀ C H W, 2 ≤ H → 2 ≤ W → C ≠ 1 → C < 4 → bandFix [C, H, W] = BandFix.shapeError) ∧
    (∀ H W, 2 ≤ H → 2 ≤ W → bandFix [1, H, W] = BandFix.replicate) ∧
    (∀ C H W, 2 ≤ H → 2 ≤ W → 4 < C → bandFix [C, H, W] = BandFix.truncate) ∧
    (∀ H W, 2 ≤ H → 2 ≤ W → bandFix [4, H, W] = BandFix.keep) ∧
    (∀ img : List Plane, img.length = 0 ∨ img.length = 2 ∨ img.length = 3 →
      selectBands img = Except.error ("Expected at least 4 bands")) ∧
    (∀ (img : List Plane) (b : Plane), img = [b] → selectBands img = Except.ok [b, b, b, b]) ∧
    (∀ img : List Plane, 4 ≤ img.length → selectBands img = Except.ok (img.take 4)) ∧
    (∀ C W, 2 ≤ C → C < 4 → 2 ≤ W → bandFix [C, 1, W] = BandFix.replicate) ∧
    (∀ W, 2 ≤ W → W < 4 → bandFix [1, 1, W] = BandFix.shapeError) ∧
    (∀ W, 4 < W → bandFix [1, 1, W] = BandFix.truncate) := by
  refine ⟨?_, ?_, ?_, ?_, ?_, ?_, ?_, ?_, ?_, ?_⟩
  · intro C H W hH hW hC1 hC4
    have hfil : [C, H, W].filter (fun d => d ≠ 1) = [C, H, W] := by
      rw [filter_ne_one_cons _ hC1, filter_ne_one_cons _ (by omega : H ≠ 1),
        filter_ne_one_cons _ (by omega : W ≠ 1), List.filter_nil]
    unfold bandFix
    rw [hfil, if_neg (by simp)]
    show (if C < 4 then BandFix.shapeError else
      if C > 4 then BandFix.truncate else BandFix.keep) = BandFix.shapeError
    rw [if_pos hC4]
  · intro H W hH hW
    have hfil : [1, H, W].filter (fun d => d ≠ 1) = [H, W] := by
      rw [filter_ne_one_cons_one, filter_ne_one_cons _ (by omega : H ≠ 1),
        filter_ne_one_cons _ (by omega : W ≠ 1), List.filter_nil]
    unfold bandFix
    rw [hfil, if_pos (show [H, W].length = 2 from rfl)]
  · intro C H W hH hW hC
    have hfil : [C, H, W].filter (fun d => d ≠ 1) = [C, H, W] := by
      rw [filter_ne_one_cons _ (by omega : C ≠ 1), filter_ne_one_cons _ (by omega : H ≠ 1),
        filter_ne_one_cons _ (by omega : W ≠ 1), List.filter_nil]
    unfold bandFix
    rw [hfil, if_neg (by simp)]
    show (if C < 4 then BandFix.shapeError else
      if C > 4 then BandFix.truncate else BandFix.keep) = BandFix.truncate
    rw [if_neg (by omega), if_pos hC]
  · intro H W hH hW
    have hfil : [4, H, W].filter (fun d => d ≠ 1) = [4, H, W] := by
      rw [filter_ne_one_cons _ (by omega : (4 : Nat) ≠ 1),
        filter_ne_one_cons _ (by omega : H ≠ 1),
        filter_ne_one_cons _ (by omega : W ≠ 1), List.filter_nil]
    unfold bandFix
    rw [hfil, if_neg (by simp)]
    show (if (4 : Nat) < 4 then BandFix.shapeError else
      if (4 : Nat) > 4 then BandFix.truncate else BandFix.keep) = BandFix.keep
    rw [if_neg (by omega), if_neg (by omega)]
  · intro img hlen
    match img, hlen with
    | [], _ => rfl
    | [b1, b2], _ => rfl
    | [b1, b2, b3], _ => rfl
    | [b], h => simp at h
    | (b1 :: b2 :: b3 :: b4 :: t), h => simp at h
  · intro img b hb
    subst hb
    rfl
  · intro img hlen
    match img, hlen with
    | (b1 :: b2 :: b3 :: b4 :: t), _ => rfl
    | [], h => simp at h
    | [b1], h => simp at h
    | [b1, b2], h => simp at h
    | [b1, b2, b3], h => simp at h
  · intro C W hC2 hC4 hW
    have hfil : [C, 1, W].filter (fun d => d ≠ 1) = [C, W] := by
      rw [filter_ne_one_cons _ (by omega : C ≠ 1), filter_ne_one_cons_one,
        filter_ne_one_cons _ (by omega : W ≠ 1), List.filter_nil]
    unfold bandFix
    rw [hfil, if_pos (show [C, W].length = 2 from rfl)]
  · intro W hW2 hW4
    have hfil : [1, 1, W].filter (fun d => d ≠ 1) = [W] := by
      rw [filter_ne_one_cons_one, filter_ne_one_cons_one,
        filter_ne_one_cons _ (by omega : W ≠ 1), List.filter_nil]
    unfold bandFix
    rw [hfil, if_neg (by simp)]
    show (if W < 4 then BandFix.shapeError else
      if W > 4 then BandFix.truncate else BandFix.keep) = BandFix.shapeError
    rw [if_pos hW4]
  · intro W hW
    have hfil : [1, 1, W].filter (fun d => d ≠ 1) = [W] := by
      rw [filter_ne_one_cons_one, filter_ne_one_cons_one,
        filter_ne_one_cons _ (by omega : W ≠ 1), List.filter_nil]
    unfold bandFix
    rw [hfil, if_neg (by simp)]
    show (if W < 4 then BandFix.shapeError else
      if W > 4 then BandFix.truncate else BandFix.keep) = BandFix.truncate
    rw [if_neg (by omega), if_pos hW]

/-- Witness for the amended C8: 2 channels with spatial dims above 1 raise
the shape error; 2 channels with height 1 are replicated instead; the
channel-level model rejects a 2-band list. -/
theorem band_count_handling_witness :
    bandFix [2, 5, 5] = BandFix.shapeError ∧
    bandFix [2, 1, 5] = BandFix.replicate ∧
    selectBands [zeroPlane, zeroPlane] = Except.error ("Expected at least 4 bands") :=
  ⟨band_count_handling.1 2 5 5 (by decide) (by decide) (by decide) (by decide),
    band_count_handling.2.2.2.2.2.2.2.1 2 5 (by decide) (by decide) (by decide),
    band_count_handling.2.2.2.2.1 [zeroPlane, zeroPlane] (Or.inr (Or.inl rfl))⟩

/-- Claim C9 as stated is false: the NDWI channel is emitted without any
NaN replacement, so at a pixel with `green = nir = 0` the emitted feature
value is NaN (non-finite). -/
theorem index_channel_nan_counterexample : ndwiChannel 0 0 = none := by
  norm_num [ndwiChannel, compute_ndwi, rescale01]

/-- Claim C9 (amended): the NDVI and EVI channels always contain finite
values in `[0, 1]` — NaN left by the rescale is replaced by the fallback 0
— but the SAVI and NDWI channels receive no NaN replacement: they are
finite in `[0, 1]` exactly where their denominators are nonzero and remain
NaN where the denominator is 0. -/
theorem index_channel_finiteness (blue green red nir : ℚ) :
    (∃ v, ndviChannel red nir = some v ∧ 0 ≤ v ∧ v ≤ 1) ∧
    (∃ v, eviChannel blue red nir = some v ∧ 0 ≤ v ∧ v ≤ 1) ∧
    (nir + red + 1 / 2 ≠ 0 → ∃ v, saviChannel red nir = some v ∧ 0 ≤ v ∧ v ≤ 1) ∧
    (nir + red + 1 / 2 = 0 → saviChannel red nir = none) ∧
    (green + nir ≠ 0 → ∃ v, ndwiChannel green nir = some v ∧ 0 ≤ v ∧ v ≤ 1) ∧
    (green + nir = 0 → ndwiChannel green nir = none) := by
  refine ⟨?_, ?_, fun h => ?_, fun h => ?_, fun h => ?_, fun h => ?_⟩
  · rw [ndviChannel, compute_ndvi]
    by_cases h : nir + red = 0
    · rw [if_pos h, rescale01, Option.map_none', nan_to_num]
      exact ⟨0, rfl, le_refl 0, zero_le_one⟩
    · rw [if_neg h, rescale01, Option.map_some', nan_to_num]
      exact ⟨_, rfl, clip01_bounds _⟩
  · rw [eviChannel, compute_evi]
    by_cases h : nir + 6 * red - 7.5 * blue + 1 = 0
    · rw [if_pos h, rescale01, Option.map_none', nan_to_num]
      exact ⟨0, rfl, le_refl 0, zero_le_one⟩
    · rw [if_neg h, rescale01, Option.map_some', nan_to_num]
      exact ⟨_, rfl, clip01_bounds _⟩
  · rw [saviChannel, compute_savi, if_neg h, rescale01, Option.map_some']
    exact ⟨_, rfl, clip01_bounds _⟩
  · rw [saviChannel, compute_savi, if_pos h, rescale01, Option.map_none']
  · rw [ndwiChannel, compute_ndwi, if_neg h, rescale01, Option.map_some']
    exact ⟨_, rfl, clip01_bounds _⟩
  · rw [ndwiChannel, compute_ndwi, if_pos h, rescale01, Option.map_none']

/-- Witness for the amended C9: a zero SAVI denominator leaves NaN. -/
theorem index_channel_finiteness_witness :
    saviChannel (-1 / 4) (-1 / 4) = none :=
  (index_channel_finiteness 0 0 (-1 / 4) (-1 / 4)).2.2.2.1 (by norm_num)

/-- Claim C10 (implicit): `compute_accuracy_metrics` returns identical
results for any two values of its `pred_nodata` parameter on the same pair
of rasters — the parameter is accepted but never read, because predicted
pixels are filtered solely by the predicted-class membership check. -/
theorem pred_nodata_independence (pred ref : Raster) (pn1 pn2 : ℤ)
    (rn : Option ℤ) :
    compute_accuracy_metrics pred ref pn1 rn =
      compute_accuracy_metrics pred ref pn2 rn := rfl

end WoodedMapping
